import Mathlib

/-!
# ProjectSHASN backend: the two card handlers of `main.go`

A shallow embedding of `getCollectionName`, `getRandomCard` and `getNextCard`.

* A `Card` (a Go map from `string` to the empty interface) is an association list from field
  names to values; it is read with `getField` and written with `setField`,
  the two operations a Go map offers.
* The document store is explicit state (`World`): the contents of every
  collection in the store's natural order, the outcome schedule of the
  upcoming storage calls (fault or not), and the log of the queries issued.
* `c.Query(name)` yields the empty string for an absent parameter, so a
  handler takes its query parameters as plain strings.
* `c.JSON(status, body)` is the returned `Response`; a `gin.H` error body is
  the one-field card `errorBody msg`.
* Go `int` is taken to be 64 bits wide (`intSize`).
-/

namespace ProjectSHASN

/-! ## Data model -/

/-- Field values of a stored document: the scalar BSON kinds the handlers can
meet in an identifier or copy through. -/
inductive Value where
  | null
  | int (i : Int)
  | str (s : String)
  | bool (b : Bool)
  deriving DecidableEq, Repr

/-- Go: `type Card`, a map from `string` to the empty interface. -/
abbrev Card := List (String × Value)

/-- Go map read `card[k]`: the value bound to `k`, if any. -/
def getField (k : String) : Card → Option Value
  | [] => none
  | (k', v) :: rest => if k' = k then some v else getField k rest

/-- Go map write `card[k] = v`: rebinds `k` when present, adds it otherwise. -/
def setField (k : String) (v : Value) : Card → Card
  | [] => [(k, v)]
  | (k', v') :: rest => if k' = k then (k, v) :: rest else (k', v') :: setField k v rest

def CollectionGemini : String := "GeminiQuestions"

def CollectionGpt : String := "GptQuestions"

def StatusOK : Nat := 200

def StatusBadRequest : Nat := 400

def StatusNotFound : Nat := 404

def StatusInternalServerError : Nat := 500

/-- What `c.JSON(status, body)` sends. -/
structure Response where
  status : Nat
  body : Card
  deriving DecidableEq, Repr

/-- Go: the `gin.H` error body, a map with the single key `error`. -/
def errorBody (msg : String) : Card := [("error", Value.str msg)]

/-! ## The document store -/

/-- Query filters used by the handlers: the empty filter, and the filter
`_id` `$gt` `n`. -/
inductive Filter where
  | all
  | idGt (n : Int)
  deriving DecidableEq, Repr

/-- Options of `FindOne`: `SetSort` by `_id` ascending, and `SetSkip(skip)`
(no skip is skip 0). -/
structure FindOneOptions where
  sortById : Bool
  skip : Nat
  deriving DecidableEq, Repr

/-- A storage call, as recorded in the log. -/
inductive Query where
  | countDocuments (coll : String)
  | findOne (coll : String) (filter : Filter) (opts : FindOneOptions)
  deriving DecidableEq, Repr

/-- The collection a storage call addresses. -/
def Query.coll : Query → String
  | Query.countDocuments c => c
  | Query.findOne c _ _ => c

/-- Errors of a storage call: `mongo.ErrNoDocuments`, or any other error. -/
inductive StorageError where
  | noDocuments
  | fault
  deriving DecidableEq, Repr

/-- The store as the handlers see it. `colls name` is the content of a
collection in natural order; `faults` tells, for each upcoming storage call in
turn, whether it fails with a storage fault (an exhausted schedule means no
fault); `log` holds the calls issued so far, oldest first. -/
structure World where
  colls : String → List Card
  faults : List Bool
  log : List Query

/-- The identifier of a document; a missing `_id` sorts and compares as null. -/
def idOf (c : Card) : Value := (getField "_id" c).getD Value.null

/-- Position of a value kind in the BSON comparison order
(null < numbers < strings < booleans). -/
def bsonRank : Value → Nat
  | Value.null => 0
  | Value.int _ => 1
  | Value.str _ => 2
  | Value.bool _ => 3

/-- BSON comparison order on values. -/
def bsonLe : Value → Value → Bool
  | Value.int a, Value.int b => decide (a ≤ b)
  | Value.str a, Value.str b => decide (a ≤ b)
  | Value.bool a, Value.bool b => decide (a ≤ b)
  | a, b => decide (bsonRank a ≤ bsonRank b)

/-- Ascending `_id` order on documents. -/
def idLe (a b : Card) : Prop := bsonLe (idOf a) (idOf b) = true

instance : DecidableRel idLe := fun a b => inferInstanceAs (Decidable (bsonLe (idOf a) (idOf b) = true))

/-- Whether a document matches a filter; `$gt` against an integer matches
numbers only. -/
def matchesFilter : Filter → Card → Bool
  | Filter.all, _ => true
  | Filter.idGt n, c =>
    match idOf c with
    | Value.int i => decide (n < i)
    | _ => false

/-- The document a `FindOne` selects: filter, sort (stable) when asked,
skip, take the first. -/
def selectOne (filter : Filter) (opts : FindOneOptions) (docs : List Card) : Option Card :=
  let matched := docs.filter (matchesFilter filter)
  let ordered := if opts.sortById then matched.insertionSort idLe else matched
  (ordered.drop opts.skip).head?

/-- Takes the outcome of the next storage call off the schedule. -/
def nextFault : List Bool → Bool × List Bool
  | [] => (false, [])
  | b :: bs => (b, bs)

/-- Go: `collection.CountDocuments` with the empty filter. -/
def countDocuments (coll : String) (w : World) : Except StorageError Nat × World :=
  let w' : World := ⟨w.colls, (nextFault w.faults).2, w.log ++ [Query.countDocuments coll]⟩
  if (nextFault w.faults).1 then (Except.error StorageError.fault, w')
  else (Except.ok (w.colls coll).length, w')

/-- Go: `collection.FindOne(ctx, filter, opts).Decode(&card)`. -/
def findOne (coll : String) (filter : Filter) (opts : FindOneOptions) (w : World) :
    Except StorageError Card × World :=
  let w' : World := ⟨w.colls, (nextFault w.faults).2, w.log ++ [Query.findOne coll filter opts]⟩
  if (nextFault w.faults).1 then (Except.error StorageError.fault, w')
  else
    match selectOne filter opts (w.colls coll) with
    | some card => (Except.ok card, w')
    | none => (Except.error StorageError.noDocuments, w')

/-! ## Library functions the handlers call -/

/-- Width of Go `int`. -/
def intSize : Nat := 64

/-- Reads decimal digits left to right, as the loop of `strconv.Atoi`. -/
def parseDigits : List Char → Nat → Option Nat
  | [], acc => some acc
  | c :: cs, acc =>
    if '0' ≤ c ∧ c ≤ '9' then parseDigits cs (acc * 10 + (c.toNat - '0'.toNat)) else none

/-- Go: `strconv.Atoi`: an optional sign, then one or more decimal digits, the
value within the range of `int`; `none` stands for a returned error. -/
def Atoi (s : String) : Option Int :=
  match s.toList with
  | [] => none
  | c :: rest =>
    let neg := decide (c = '-')
    let digits := if c = '-' ∨ c = '+' then rest else c :: rest
    if digits = [] then none
    else
      match parseDigits digits 0 with
      | none => none
      | some n =>
        let v : Int := if neg then -(n : Int) else (n : Int)
        if -(2 : Int) ^ (intSize - 1) ≤ v ∧ v < (2 : Int) ^ (intSize - 1) then some v else none

/-- Go: `rand.Int63n(n)` for `n > 0`, where `raw` is the 63-bit value of the
source that the call accepts: masking (`n` a power of two) and the rejection
loop both end in `raw mod n`. -/
def Int63n (raw : Nat) (n : Nat) : Nat := raw % n

/-! ## The handlers -/

def getCollectionName (deck : String) : String :=
  if deck = "gpt" then CollectionGpt else CollectionGemini

/-- Go: `getRandomCard`; `raw` is what the random source yields at this call. -/
def getRandomCard (deck : String) (raw : Nat) (w : World) : Response × World :=
  let collectionName := getCollectionName deck
  match countDocuments collectionName w with
  | (Except.error _, w1) =>
    (⟨StatusInternalServerError, errorBody "Failed to count documents"⟩, w1)
  | (Except.ok count, w1) =>
    if count = 0 then (⟨StatusNotFound, errorBody "No cards found in deck"⟩, w1)
    else
      let skip := Int63n raw count
      match findOne collectionName Filter.all ⟨false, skip⟩ w1 with
      | (Except.error _, w2) =>
        (⟨StatusInternalServerError, errorBody "Failed to fetch card"⟩, w2)
      | (Except.ok card, w2) =>
        let card := setField "deck" (Value.str deck) card
        let card :=
          if deck = "gpt" then setField "deck" (Value.str "gpt") card
          else setField "deck" (Value.str "gemini") card
        (⟨StatusOK, card⟩, w2)

/-- Go: `getNextCard`. -/
def getNextCard (deck : String) (currentIDStr : String) (w : World) : Response × World :=
  if currentIDStr = "" then (⟨StatusBadRequest, errorBody "current_id is required"⟩, w)
  else
    match Atoi currentIDStr with
    | none =>
      (⟨StatusBadRequest, errorBody "Invalid current_id format, expected integer"⟩, w)
    | some currentID =>
      let collectionName := getCollectionName deck
      match findOne collectionName (Filter.idGt currentID) ⟨true, 0⟩ w with
      | (Except.ok card, w1) =>
        let card :=
          if deck = "gpt" then setField "deck" (Value.str "gpt") card
          else setField "deck" (Value.str "gemini") card
        (⟨StatusOK, card⟩, w1)
      | (Except.error StorageError.noDocuments, w1) =>
        match findOne collectionName Filter.all ⟨true, 0⟩ w1 with
        | (Except.ok card, w2) =>
          let card :=
            if deck = "gpt" then setField "deck" (Value.str "gpt") card
            else setField "deck" (Value.str "gemini") card
          (⟨StatusOK, card⟩, w2)
        | (Except.error _, w2) => (⟨StatusNotFound, errorBody "No next card found"⟩, w2)
      | (Except.error StorageError.fault, w1) =>
        (⟨StatusInternalServerError, errorBody "Failed to fetch card"⟩, w1)

/-! ## Specification-side notions, the client of `/next`, and sample data -/

/-- The canonical deck name written into a response. -/
def canonicalDeck (deck : String) : String := if deck = "gpt" then "gpt" else "gemini"

/-- The 200 response carrying document `d` for the deck `deck`. -/
def okResponse (deck : String) (d : Card) : Response :=
  ⟨StatusOK, setField "deck" (Value.str (canonicalDeck deck)) d⟩

/-- Storage reports no fault: no upcoming storage call is scheduled to fail. -/
def NoFault (w : World) : Prop := ∀ b ∈ w.faults, b = false

/-- All identifiers of a collection are integers. -/
def IntIds (docs : List Card) : Prop := ∀ d ∈ docs, ∃ i, idOf d = Value.int i

/-- The collection has integer identifiers, no two equal. -/
def DistinctIntIds (docs : List Card) : Prop := IntIds docs ∧ (docs.map idOf).Nodup

/-- The integer `mx` is the greatest identifier present in the collection. -/
def IsMaxId (docs : List Card) (mx : Int) : Prop :=
  (∃ d ∈ docs, idOf d = Value.int mx) ∧ ∀ e ∈ docs, ∀ j, idOf e = Value.int j → j ≤ mx

/-- Every integer identifier of the collection fits a 64-bit `int`. -/
def IdsInRange (docs : List Card) : Prop :=
  ∀ d ∈ docs, ∀ i, idOf d = Value.int i → -(2 : Int) ^ 63 ≤ i ∧ i < (2 : Int) ^ 63

/-- The integer identifier of a document (0 when the identifier is no integer). -/
def intKey (d : Card) : Int :=
  match idOf d with
  | Value.int i => i
  | _ => 0

/-- The response of `getNextCard` once the identifier has parsed, as a function of the
resolved collection and the outcomes of the two storage calls. -/
def nextResponse (deck : String) (docs : List Card) (cur : Int) (f1 f2 : Bool) : Response :=
  if f1 then ⟨StatusInternalServerError, errorBody "Failed to fetch card"⟩
  else match selectOne (Filter.idGt cur) ⟨true, 0⟩ docs with
    | some card => ⟨StatusOK, setField "deck" (Value.str (canonicalDeck deck)) card⟩
    | none =>
      if f2 then ⟨StatusNotFound, errorBody "No next card found"⟩
      else match selectOne Filter.all ⟨true, 0⟩ docs with
        | some card => ⟨StatusOK, setField "deck" (Value.str (canonicalDeck deck)) card⟩
        | none => ⟨StatusNotFound, errorBody "No next card found"⟩

/-- The response of `getRandomCard`, as a function of the resolved collection, the
random draw and the outcomes of the two storage calls. -/
def randomResponse (deck : String) (docs : List Card) (raw : Nat) (f1 f2 : Bool) : Response :=
  if f1 then ⟨StatusInternalServerError, errorBody "Failed to count documents"⟩
  else if docs.length = 0 then ⟨StatusNotFound, errorBody "No cards found in deck"⟩
  else if f2 then ⟨StatusInternalServerError, errorBody "Failed to fetch card"⟩
  else match docs[Int63n raw docs.length]? with
    | some card => ⟨StatusOK, setField "deck" (Value.str (canonicalDeck deck)) card⟩
    | none => ⟨StatusInternalServerError, errorBody "Failed to fetch card"⟩

/-- The document `getNextCard` selects when storage reports no fault. -/
def stepDoc (docs : List Card) (cur : Int) : Option Card :=
  match selectOne (Filter.idGt cur) ⟨true, 0⟩ docs with
  | some card => some card
  | none => selectOne Filter.all ⟨true, 0⟩ docs

/-- The decimal digit character of `d < 10`. -/
def digitChar (d : Nat) : Char := Char.ofNat ('0'.toNat + d)

/-- Decimal digits of a natural number, most significant first. -/
def natDigits (n : Nat) : List Char :=
  if n = 0 then ['0'] else (Nat.digits 10 n).reverse.map digitChar

/-- Go: `strconv.Itoa`, the decimal text a client sends for an identifier. -/
def Itoa (i : Int) : String :=
  match i with
  | Int.ofNat n => String.mk (natDigits n)
  | Int.negSucc n => String.mk ('-' :: natDigits (n + 1))

/-- The `current_id` a client derives from a response body: its `_id` in decimal. -/
def idString (body : Card) : String :=
  match getField "_id" body with
  | some (Value.int i) => Itoa i
  | _ => ""

/-- The responses of `k` successive `/next` calls, the first with `current_id = cur`,
each later one with the identifier of the document returned just before. -/
def followNext (deck : String) : Nat → String → World → List Response
  | 0, _, _ => []
  | k + 1, cur, w =>
    (getNextCard deck cur w).1 ::
      followNext deck k (idString (getNextCard deck cur w).1.body) (getNextCard deck cur w).2

/-- A stored flashcard with identifier `i`, a question text and a stale `deck` field. -/
def sampleCard (i : Int) (q : String) : Card :=
  [("_id", Value.int i), ("question", Value.str q), ("deck", Value.str "stale")]

/-- A collection with identifiers 3, 7, 1 in natural order. -/
def sampleDocs : List Card := [sampleCard 3 "c", sampleCard 7 "g", sampleCard 1 "a"]

/-- A store whose Gemini collection is `sampleDocs`, with an empty GPT collection
and no fault scheduled. -/
def sampleWorld : World :=
  ⟨fun name => if name = CollectionGemini then sampleDocs else [], [], []⟩

/-- The store `sampleWorld` with a single GPT card added. -/
def sampleWorldGpt : World :=
  ⟨fun name => if name = CollectionGemini then sampleDocs else [sampleCard 9 "z"], [], []⟩

/-- The store `sampleWorld` whose first storage call succeeds and whose second
fails with a storage fault. -/
def wrapFaultWorld : World := ⟨sampleWorld.colls, [false, true], []⟩

/-- The store `sampleWorld` whose first storage call fails with a storage fault. -/
def faultOnceWorld : World := ⟨sampleWorld.colls, [true], []⟩

/-- The store `sampleWorld` whose fourth storage call fails with a storage fault. -/
def faultFourthWorld : World := ⟨sampleWorld.colls, [false, false, false, true], []⟩

/-! ## Properties -/

theorem getField_setField_same (k : String) (v : Value) (c : Card) :
    getField k (setField k v c) = some v := by
  induction c with
  | nil => simp [setField, getField]
  | cons p rest ih =>
    obtain ⟨k', v'⟩ := p
    by_cases h : k' = k
    · simp [setField, getField, h]
    · simp [setField, getField, h, ih]

theorem getField_setField_other (k k' : String) (v : Value) (c : Card) (h : k' ≠ k) :
    getField k' (setField k v c) = getField k' c := by
  induction c with
  | nil => simp [setField, getField, Ne.symm h]
  | cons p rest ih =>
    obtain ⟨k0, v0⟩ := p
    by_cases h0 : k0 = k
    · subst h0
      simp [setField, getField, Ne.symm h]
    · by_cases h1 : k0 = k'
      · subst h1
        simp [setField, getField, h]
      · simp [setField, getField, h0, h1, ih]

theorem setField_setField (k : String) (v v' : Value) (c : Card) :
    setField k v' (setField k v c) = setField k v' c := by
  induction c with
  | nil => simp [setField]
  | cons p rest ih =>
    obtain ⟨k0, v0⟩ := p
    by_cases h0 : k0 = k
    · simp [setField, h0]
    · simp [setField, h0, ih]

theorem decorate_eq (deck : String) (card : Card) :
    (if deck = "gpt" then setField "deck" (Value.str "gpt") card
      else setField "deck" (Value.str "gemini") card)
      = setField "deck" (Value.str (canonicalDeck deck)) card := by
  unfold canonicalDeck
  split <;> rfl

theorem nextFault_noFault (w : World) (h : NoFault w) :
    (nextFault w.faults).1 = false ∧ ∀ b ∈ (nextFault w.faults).2, b = false := by
  unfold NoFault at h
  cases hf : w.faults with
  | nil => simp [nextFault]
  | cons b bs =>
    rw [hf] at h
    simp [nextFault] at h ⊢
    exact h

theorem findOne_snd (coll : String) (f : Filter) (o : FindOneOptions) (w : World) :
    (findOne coll f o w).2
      = ⟨w.colls, (nextFault w.faults).2, w.log ++ [Query.findOne coll f o]⟩ := by
  unfold findOne
  split
  · rfl
  · split <;> rfl

theorem findOne_fst (coll : String) (f : Filter) (o : FindOneOptions) (w : World) :
    (findOne coll f o w).1
      = if (nextFault w.faults).1 then Except.error StorageError.fault
        else match selectOne f o (w.colls coll) with
          | some card => Except.ok card
          | none => Except.error StorageError.noDocuments := by
  unfold findOne
  split
  · rfl
  · split <;> simp_all

theorem findOne_eq (coll : String) (f : Filter) (o : FindOneOptions) (w : World) :
    findOne coll f o w
      = (if (nextFault w.faults).1 then Except.error StorageError.fault
        else match selectOne f o (w.colls coll) with
          | some card => Except.ok card
          | none => Except.error StorageError.noDocuments,
        ⟨w.colls, (nextFault w.faults).2, w.log ++ [Query.findOne coll f o]⟩) :=
  Prod.ext (findOne_fst coll f o w) (findOne_snd coll f o w)

theorem getNextCard_fst (deck s : String) (w : World) (cur : Int) (h : Atoi s = some cur) :
    (getNextCard deck s w).1
      = nextResponse deck (w.colls (getCollectionName deck)) cur (nextFault w.faults).1
          (nextFault (nextFault w.faults).2).1 := by
  have hs : s ≠ "" := by
    rintro rfl
    simp [Atoi] at h
  unfold getNextCard nextResponse
  simp only [hs, if_false, h, decorate_eq, findOne_eq]
  rcases hf1 : (nextFault w.faults).1 <;>
    rcases hs1 : selectOne (Filter.idGt cur) ⟨true, 0⟩ (w.colls (getCollectionName deck)) <;>
    rcases hf2 : (nextFault (nextFault w.faults).2).1 <;>
    rcases hs2 : selectOne Filter.all ⟨true, 0⟩ (w.colls (getCollectionName deck)) <;>
    simp [hf2, hs2]

theorem head?_orderedInsert (a : Card) (l : List Card) :
    (List.orderedInsert idLe a l).head?
      = some (match l.head? with
        | none => a
        | some b => if idLe a b then a else b) := by
  cases l with
  | nil => simp
  | cons b l =>
    by_cases h : idLe a b <;> simp [List.orderedInsert, h]

theorem idLe_int (a b : Card) (i j : Int) (ha : idOf a = Value.int i) (hb : idOf b = Value.int j) :
    idLe a b ↔ i ≤ j := by
  simp [idLe, ha, hb, bsonLe]

theorem sortedHead_spec (l : List Card) (hint : IntIds l) (hne : l ≠ []) :
    ∃ d i, (l.insertionSort idLe).head? = some d ∧ d ∈ l ∧ idOf d = Value.int i ∧
      ∀ e ∈ l, ∀ j, idOf e = Value.int j → i ≤ j := by
  induction l with
  | nil => exact absurd rfl hne
  | cons a l ih =>
    obtain ⟨ia, hia⟩ := hint a (List.mem_cons_self a l)
    have hint' : IntIds l := fun d hd => hint d (List.mem_cons_of_mem a hd)
    by_cases hl : l = []
    · subst hl
      refine ⟨a, ia, by simp, by simp, hia, ?_⟩
      intro e he j hj
      simp at he
      subst he
      rw [hia] at hj
      injection hj with hj
      omega
    · obtain ⟨d, i, hhead, hmem, hid, hmin⟩ := ih hint' hl
      simp only [List.insertionSort, head?_orderedInsert, hhead]
      by_cases hle : idLe a d
      · have hle' : ia ≤ i := (idLe_int a d ia i hia hid).1 hle
        refine ⟨a, ia, by simp [hle], by simp, hia, ?_⟩
        intro e he j hj
        rcases List.mem_cons.1 he with rfl | he
        · rw [hia] at hj
          injection hj with hj
          omega
        · have := hmin e he j hj
          omega
      · have hle' : ¬ ia ≤ i := fun h => hle ((idLe_int a d ia i hia hid).2 h)
        refine ⟨d, i, by simp [hle], List.mem_cons_of_mem a hmem, hid, ?_⟩
        intro e he j hj
        rcases List.mem_cons.1 he with rfl | he
        · rw [hia] at hj
          injection hj with hj
          omega
        · exact hmin e he j hj

theorem mem_filter_idGt (cur : Int) (docs : List Card) (e : Card) :
    e ∈ docs.filter (matchesFilter (Filter.idGt cur)) ↔
      e ∈ docs ∧ ∃ j, idOf e = Value.int j ∧ cur < j := by
  rw [List.mem_filter]
  constructor
  · rintro ⟨he, hm⟩
    refine ⟨he, ?_⟩
    cases hid : idOf e with
    | int i => exact ⟨i, rfl, by simpa [matchesFilter, hid] using hm⟩
    | null => simp [matchesFilter, hid] at hm
    | str s => simp [matchesFilter, hid] at hm
    | bool b => simp [matchesFilter, hid] at hm
  · rintro ⟨he, j, hj, hlt⟩
    refine ⟨he, ?_⟩
    simp [matchesFilter, hj, hlt]

theorem selectOne_sorted (f : Filter) (docs : List Card) :
    selectOne f ⟨true, 0⟩ docs = ((docs.filter (matchesFilter f)).insertionSort idLe).head? := by
  simp [selectOne]

theorem filter_all (docs : List Card) : docs.filter (matchesFilter Filter.all) = docs := by
  simp [matchesFilter]

theorem selectOne_gt_some (cur : Int) (docs : List Card)
    (h : ∃ e ∈ docs, ∃ j, idOf e = Value.int j ∧ cur < j) :
    ∃ d ∈ docs, ∃ i, idOf d = Value.int i ∧ cur < i ∧
      (∀ e ∈ docs, ∀ j, idOf e = Value.int j → cur < j → i ≤ j) ∧
      selectOne (Filter.idGt cur) ⟨true, 0⟩ docs = some d := by
  obtain ⟨e0, he0, j0, hj0, hlt0⟩ := h
  have hne : docs.filter (matchesFilter (Filter.idGt cur)) ≠ [] :=
    List.ne_nil_of_mem ((mem_filter_idGt cur docs e0).2 ⟨he0, j0, hj0, hlt0⟩)
  have hint : IntIds (docs.filter (matchesFilter (Filter.idGt cur))) := by
    intro d hd
    obtain ⟨_, j, hj, _⟩ := (mem_filter_idGt cur docs d).1 hd
    exact ⟨j, hj⟩
  obtain ⟨d, i, hhead, hmem, hid, hmin⟩ := sortedHead_spec _ hint hne
  obtain ⟨hd, j, hj, hlt⟩ := (mem_filter_idGt cur docs d).1 hmem
  have hji : j = i := by
    rw [hid] at hj
    injection hj with hj
    exact hj.symm
  subst hji
  refine ⟨d, hd, j, hid, hlt, ?_, ?_⟩
  · intro e he k hk hkl
    exact hmin e ((mem_filter_idGt cur docs e).2 ⟨he, k, hk, hkl⟩) k hk
  · rw [selectOne_sorted, hhead]

theorem selectOne_gt_none (cur : Int) (docs : List Card)
    (h : ∀ e ∈ docs, ∀ j, idOf e = Value.int j → j ≤ cur) :
    selectOne (Filter.idGt cur) ⟨true, 0⟩ docs = none := by
  have hnil : docs.filter (matchesFilter (Filter.idGt cur)) = [] := by
    rw [List.eq_nil_iff_forall_not_mem]
    intro e he
    obtain ⟨he', j, hj, hlt⟩ := (mem_filter_idGt cur docs e).1 he
    have := h e he' j hj
    omega
  rw [selectOne_sorted, hnil]
  rfl

theorem selectOne_all_some (docs : List Card) (hint : IntIds docs) (hne : docs ≠ []) :
    ∃ d ∈ docs, ∃ i, idOf d = Value.int i ∧
      (∀ e ∈ docs, ∀ j, idOf e = Value.int j → i ≤ j) ∧
      selectOne Filter.all ⟨true, 0⟩ docs = some d := by
  obtain ⟨d, i, hhead, hmem, hid, hmin⟩ := sortedHead_spec docs hint hne
  exact ⟨d, hmem, i, hid, hmin, by rw [selectOne_sorted, filter_all, hhead]⟩

theorem selectOne_nil (f : Filter) (o : FindOneOptions) : selectOne f o [] = none := by
  cases o with
  | mk s k => cases s <;> simp [selectOne]

theorem selectOne_skip (docs : List Card) (k : Nat) :
    selectOne Filter.all ⟨false, k⟩ docs = docs[k]? := by
  simp [selectOne, filter_all]

theorem countDocuments_eq (coll : String) (w : World) :
    countDocuments coll w
      = (if (nextFault w.faults).1 then Except.error StorageError.fault
        else Except.ok (w.colls coll).length,
        ⟨w.colls, (nextFault w.faults).2, w.log ++ [Query.countDocuments coll]⟩) := by
  unfold countDocuments
  split <;> rfl

theorem getRandomCard_fst (deck : String) (raw : Nat) (w : World) :
    (getRandomCard deck raw w).1
      = randomResponse deck (w.colls (getCollectionName deck)) raw (nextFault w.faults).1
          (nextFault (nextFault w.faults).2).1 := by
  unfold getRandomCard randomResponse
  simp only [decorate_eq, setField_setField, findOne_eq, countDocuments_eq, selectOne_skip]
  by_cases hl : (w.colls (getCollectionName deck)).length = 0 <;>
    rcases hf1 : (nextFault w.faults).1 <;>
    rcases hf2 : (nextFault (nextFault w.faults).2).1 <;>
    rcases hs : (w.colls (getCollectionName deck))[Int63n raw
      (w.colls (getCollectionName deck)).length]? <;>
    simp [hf2, hs, hl]

theorem nextFault_snd_subset (l : List Bool) : ∀ b ∈ (nextFault l).2, b ∈ l := by
  cases l with
  | nil => simp [nextFault]
  | cons a l =>
    intro b hb
    exact List.mem_cons_of_mem a hb

theorem getNextCard_snd (deck s : String) (w : World) :
    ∃ qs fs, (getNextCard deck s w).2 = ⟨w.colls, fs, w.log ++ qs⟩ ∧
      (∀ q ∈ qs, Query.coll q = getCollectionName deck) ∧ (∀ b ∈ fs, b ∈ w.faults) ∧
      (Atoi s = none → qs = [] ∧ fs = w.faults) := by
  unfold getNextCard
  by_cases hs : s = ""
  · exact ⟨[], w.faults, by simp [hs], by simp, fun b hb => hb, fun _ => ⟨rfl, rfl⟩⟩
  · cases ha : Atoi s with
    | none => exact ⟨[], w.faults, by simp [hs], by simp, fun b hb => hb, fun _ => ⟨rfl, rfl⟩⟩
    | some cur =>
      simp only [hs, if_false, findOne_eq]
      have h1 := nextFault_snd_subset w.faults
      have h2 := nextFault_snd_subset (nextFault w.faults).2
      rcases hf1 : (nextFault w.faults).1 <;>
        rcases hs1 : selectOne (Filter.idGt cur) ⟨true, 0⟩ (w.colls (getCollectionName deck)) <;>
        rcases hf2 : (nextFault (nextFault w.faults).2).1 <;>
        rcases hs2 : selectOne Filter.all ⟨true, 0⟩ (w.colls (getCollectionName deck)) <;>
        simp only [hf2, hs2, if_true, if_false, Bool.false_eq_true] <;>
        first
          | exact ⟨[Query.findOne (getCollectionName deck) (Filter.idGt cur) ⟨true, 0⟩],
              (nextFault w.faults).2, rfl, by simp [Query.coll], h1, by simp⟩
          | exact ⟨[Query.findOne (getCollectionName deck) (Filter.idGt cur) ⟨true, 0⟩,
                Query.findOne (getCollectionName deck) Filter.all ⟨true, 0⟩],
              (nextFault (nextFault w.faults).2).2, by simp, by simp [Query.coll],
              fun b hb => h1 b (h2 b hb), by simp⟩

theorem getRandomCard_snd (deck : String) (raw : Nat) (w : World) :
    ∃ qs fs, (getRandomCard deck raw w).2 = ⟨w.colls, fs, w.log ++ qs⟩ ∧
      (∀ q ∈ qs, Query.coll q = getCollectionName deck) ∧ (∀ b ∈ fs, b ∈ w.faults) := by
  unfold getRandomCard
  simp only [findOne_eq, countDocuments_eq, selectOne_skip]
  have h1 := nextFault_snd_subset w.faults
  have h2 := nextFault_snd_subset (nextFault w.faults).2
  by_cases hl : (w.colls (getCollectionName deck)).length = 0 <;>
    rcases hf1 : (nextFault w.faults).1 <;>
    rcases hf2 : (nextFault (nextFault w.faults).2).1 <;>
    rcases hs : (w.colls (getCollectionName deck))[Int63n raw
      (w.colls (getCollectionName deck)).length]? <;>
    simp only [hf2, hs, hl, if_true, if_false, Bool.false_eq_true] <;>
    first
      | exact ⟨[Query.countDocuments (getCollectionName deck)],
          (nextFault w.faults).2, rfl, by simp [Query.coll], h1⟩
      | exact ⟨[Query.countDocuments (getCollectionName deck),
            Query.findOne (getCollectionName deck) Filter.all
              ⟨false, Int63n raw (w.colls (getCollectionName deck)).length⟩],
          (nextFault (nextFault w.faults).2).2, by simp, by simp [Query.coll],
          fun b hb => h1 b (h2 b hb)⟩

theorem noFault_sampleWorld : NoFault sampleWorld := by
  intro b hb
  simp [sampleWorld] at hb

theorem sampleWorld_gemini (deck : String) (h : deck ≠ "gpt") :
    sampleWorld.colls (getCollectionName deck) = sampleDocs := by
  simp [sampleWorld, getCollectionName, h]

theorem distinctIntIds_sampleDocs : DistinctIntIds sampleDocs := by
  refine ⟨?_, by decide⟩
  intro d hd
  simp only [sampleDocs, List.mem_cons, List.mem_singleton, List.not_mem_nil, or_false] at hd
  rcases hd with rfl | rfl | rfl
  · exact ⟨3, rfl⟩
  · exact ⟨7, rfl⟩
  · exact ⟨1, rfl⟩

theorem noFault_nextFault (w : World) (h : NoFault w) :
    (nextFault w.faults).1 = false ∧ (nextFault (nextFault w.faults).2).1 = false := by
  obtain ⟨h1, h2⟩ := nextFault_noFault w h
  refine ⟨h1, ?_⟩
  cases hf : (nextFault w.faults).2 with
  | nil => rfl
  | cons b bs =>
    rw [hf] at h2
    simpa [nextFault] using h2 b (List.mem_cons_self b bs)

/-- C1: for a collection with distinct integer identifiers, a `current_id` that
parses to an integer strictly below the greatest identifier present, and no
storage fault, `getNextCard` answers 200 with the stored document whose identifier
is the least one strictly above `current_id`; the body is that document with the
`deck` field reading "gpt" for the deck "gpt" and "gemini" for any other deck, and
every other field as stored. -/
theorem getNextCard_returns_successor (deck currentIDStr : String) (w : World) (cur mx : Int)
    (hnf : NoFault w) (_hids : DistinctIntIds (w.colls (getCollectionName deck)))
    (hparse : Atoi currentIDStr = some cur)
    (hmax : IsMaxId (w.colls (getCollectionName deck)) mx) (hlt : cur < mx) :
    ∃ d ∈ w.colls (getCollectionName deck), ∃ i, idOf d = Value.int i ∧ cur < i ∧
      (∀ e ∈ w.colls (getCollectionName deck), ∀ j, idOf e = Value.int j → cur < j → i ≤ j) ∧
      (getNextCard deck currentIDStr w).1
        = ⟨StatusOK, setField "deck" (Value.str (canonicalDeck deck)) d⟩ ∧
      getField "deck" (getNextCard deck currentIDStr w).1.body
        = some (Value.str (if deck = "gpt" then "gpt" else "gemini")) ∧
      ∀ k, k ≠ "deck" → getField k (getNextCard deck currentIDStr w).1.body = getField k d := by
  obtain ⟨⟨dm, hdm, hidm⟩, _⟩ := hmax
  obtain ⟨d, hd, i, hid, hgt, hmin, hsel⟩ :=
    selectOne_gt_some cur (w.colls (getCollectionName deck)) ⟨dm, hdm, mx, hidm, hlt⟩
  obtain ⟨hf1, _⟩ := noFault_nextFault w hnf
  have hresp : (getNextCard deck currentIDStr w).1
      = ⟨StatusOK, setField "deck" (Value.str (canonicalDeck deck)) d⟩ := by
    rw [getNextCard_fst deck currentIDStr w cur hparse]
    simp [nextResponse, hf1, hsel]
  refine ⟨d, hd, i, hid, hgt, hmin, hresp, ?_, ?_⟩
  · rw [hresp]
    exact getField_setField_same "deck" _ d
  · intro k hk
    rw [hresp]
    exact getField_setField_other "deck" k _ d hk

theorem getNextCard_returns_successor_witness :
    ∃ d ∈ sampleWorld.colls (getCollectionName ""), ∃ i, idOf d = Value.int i ∧ 3 < i ∧
      (∀ e ∈ sampleWorld.colls (getCollectionName ""), ∀ j,
        idOf e = Value.int j → 3 < j → i ≤ j) ∧
      (getNextCard "" "3" sampleWorld).1
        = ⟨StatusOK, setField "deck" (Value.str (canonicalDeck "")) d⟩ ∧
      getField "deck" (getNextCard "" "3" sampleWorld).1.body
        = some (Value.str (if "" = "gpt" then "gpt" else "gemini")) ∧
      ∀ k, k ≠ "deck" → getField k (getNextCard "" "3" sampleWorld).1.body = getField k d :=
  getNextCard_returns_successor "" "3" sampleWorld 3 7 noFault_sampleWorld
    (by rw [sampleWorld_gemini "" (by decide)]; exact distinctIntIds_sampleDocs)
    (by decide)
    (by
      rw [sampleWorld_gemini "" (by decide)]
      refine ⟨⟨sampleCard 7 "g", by simp [sampleDocs], rfl⟩, ?_⟩
      intro e he j hj
      simp only [sampleDocs, List.mem_cons, List.mem_singleton, List.not_mem_nil, or_false] at he
      rcases he with rfl | rfl | rfl <;> (injection hj with hj; omega))
    (by decide)

theorem isMax_sampleDocs_le (cur : Int) (h : 7 ≤ cur) :
    ∀ e ∈ sampleDocs, ∀ j, idOf e = Value.int j → j ≤ cur := by
  intro e he j hj
  simp only [sampleDocs, List.mem_cons, List.mem_singleton, List.not_mem_nil, or_false] at he
  rcases he with rfl | rfl | rfl <;> (injection hj with hj; omega)

/-- C2: for a non-empty collection with distinct integer identifiers, a
`current_id` that parses to an integer with no stored identifier strictly above
it, and no storage fault, `getNextCard` answers 200 with the document of least
identifier in the collection (wrap-around), its `deck` field set to the canonical
deck name. -/
theorem getNextCard_wraps_around (deck currentIDStr : String) (w : World) (cur : Int)
    (hnf : NoFault w) (hne : w.colls (getCollectionName deck) ≠ [])
    (hids : DistinctIntIds (w.colls (getCollectionName deck)))
    (hparse : Atoi currentIDStr = some cur)
    (hlast : ∀ e ∈ w.colls (getCollectionName deck), ∀ j, idOf e = Value.int j → j ≤ cur) :
    ∃ d ∈ w.colls (getCollectionName deck), ∃ i, idOf d = Value.int i ∧
      (∀ e ∈ w.colls (getCollectionName deck), ∀ j, idOf e = Value.int j → i ≤ j) ∧
      (getNextCard deck currentIDStr w).1
        = ⟨StatusOK, setField "deck" (Value.str (canonicalDeck deck)) d⟩ ∧
      ∀ k, k ≠ "deck" → getField k (getNextCard deck currentIDStr w).1.body = getField k d := by
  obtain ⟨d, hd, i, hid, hmin, hsel⟩ :=
    selectOne_all_some (w.colls (getCollectionName deck)) hids.1 hne
  have hnone := selectOne_gt_none cur (w.colls (getCollectionName deck)) hlast
  obtain ⟨hf1, hf2⟩ := noFault_nextFault w hnf
  have hresp : (getNextCard deck currentIDStr w).1
      = ⟨StatusOK, setField "deck" (Value.str (canonicalDeck deck)) d⟩ := by
    rw [getNextCard_fst deck currentIDStr w cur hparse]
    simp [nextResponse, hf1, hf2, hsel, hnone]
  refine ⟨d, hd, i, hid, hmin, hresp, ?_⟩
  intro k hk
  rw [hresp]
  exact getField_setField_other "deck" k _ d hk

theorem getNextCard_wraps_around_witness :
    ∃ d ∈ sampleWorld.colls (getCollectionName ""), ∃ i, idOf d = Value.int i ∧
      (∀ e ∈ sampleWorld.colls (getCollectionName ""), ∀ j, idOf e = Value.int j → i ≤ j) ∧
      (getNextCard "" "10" sampleWorld).1
        = ⟨StatusOK, setField "deck" (Value.str (canonicalDeck "")) d⟩ ∧
      ∀ k, k ≠ "deck" → getField k (getNextCard "" "10" sampleWorld).1.body = getField k d :=
  getNextCard_wraps_around "" "10" sampleWorld 10 noFault_sampleWorld
    (by rw [sampleWorld_gemini "" (by decide)]; decide)
    (by rw [sampleWorld_gemini "" (by decide)]; exact distinctIntIds_sampleDocs)
    (by decide)
    (by rw [sampleWorld_gemini "" (by decide)]; exact isMax_sampleDocs_le 10 (by decide))

/-- The scenario of the specification: with identifiers 1, 3 and 7, `current_id`
3 gives document 7, while 7 and 10 both wrap to document 1. -/
theorem getNextCard_scenario :
    (getNextCard "" "3" sampleWorld).1
        = ⟨200, [("_id", Value.int 7), ("question", Value.str "g"), ("deck", Value.str "gemini")]⟩ ∧
      (getNextCard "" "7" sampleWorld).1
        = ⟨200, [("_id", Value.int 1), ("question", Value.str "a"), ("deck", Value.str "gemini")]⟩ ∧
      (getNextCard "" "10" sampleWorld).1
        = ⟨200, [("_id", Value.int 1), ("question", Value.str "a"), ("deck", Value.str "gemini")]⟩ := by
  decide

theorem nextResponse_status (deck : String) (docs : List Card) (cur : Int) (f1 f2 : Bool) :
    (nextResponse deck docs cur f1 f2).status = StatusOK ∧
        (∃ card, (nextResponse deck docs cur f1 f2).body
          = setField "deck" (Value.str (canonicalDeck deck)) card) ∨
      (nextResponse deck docs cur f1 f2).status = StatusNotFound ∨
      (nextResponse deck docs cur f1 f2).status = StatusInternalServerError := by
  unfold nextResponse
  cases f1 <;> cases f2 <;>
    cases selectOne (Filter.idGt cur) ⟨true, 0⟩ docs <;>
    cases selectOne Filter.all ⟨true, 0⟩ docs <;> simp

theorem randomResponse_status (deck : String) (docs : List Card) (raw : Nat) (f1 f2 : Bool) :
    (randomResponse deck docs raw f1 f2).status = StatusOK ∧
        (∃ card, (randomResponse deck docs raw f1 f2).body
          = setField "deck" (Value.str (canonicalDeck deck)) card) ∨
      (randomResponse deck docs raw f1 f2).status = StatusNotFound ∨
      (randomResponse deck docs raw f1 f2).status = StatusInternalServerError := by
  unfold randomResponse
  by_cases hl : docs.length = 0 <;> cases f1 <;> cases f2 <;>
    cases docs[Int63n raw docs.length]? <;> simp [hl]

theorem getNextCard_status (deck s : String) (w : World) :
    (getNextCard deck s w).1.status = StatusOK ∧
        (∃ card, (getNextCard deck s w).1.body
          = setField "deck" (Value.str (canonicalDeck deck)) card) ∨
      (getNextCard deck s w).1.status = StatusBadRequest ∨
      (getNextCard deck s w).1.status = StatusNotFound ∨
      (getNextCard deck s w).1.status = StatusInternalServerError := by
  cases ha : Atoi s with
  | none =>
    right; left
    unfold getNextCard
    by_cases hs : s = "" <;> simp [hs, ha]
  | some cur =>
    rw [getNextCard_fst deck s w cur ha]
    rcases nextResponse_status deck (w.colls (getCollectionName deck)) cur (nextFault w.faults).1
      (nextFault (nextFault w.faults).2).1 with h | h | h
    · exact Or.inl h
    · exact Or.inr (Or.inr (Or.inl h))
    · exact Or.inr (Or.inr (Or.inr h))

/-- C3: whatever the store holds and whatever the `deck` query string is, a 200
response of `getRandomCard` or of `getNextCard` carries a `deck` field equal to
"gpt" when the query string is exactly "gpt" and to "gemini" otherwise. -/
theorem deck_field_is_canonical (deck currentIDStr : String) (raw : Nat) (w : World)
    (r : Response)
    (hr : r = (getRandomCard deck raw w).1 ∨ r = (getNextCard deck currentIDStr w).1)
    (hok : r.status = StatusOK) :
    getField "deck" r.body = some (Value.str (if deck = "gpt" then "gpt" else "gemini")) := by
  have key : ∃ card, r.body = setField "deck" (Value.str (canonicalDeck deck)) card := by
    rcases hr with hr | hr
    · subst hr
      rw [getRandomCard_fst] at hok ⊢
      rcases randomResponse_status deck (w.colls (getCollectionName deck)) raw
        (nextFault w.faults).1 (nextFault (nextFault w.faults).2).1 with h | h | h
      · exact h.2
      · rw [h] at hok
        exact absurd hok (by decide)
      · rw [h] at hok
        exact absurd hok (by decide)
    · subst hr
      rcases getNextCard_status deck currentIDStr w with h | h | h | h
      · exact h.2
      · rw [h] at hok
        exact absurd hok (by decide)
      · rw [h] at hok
        exact absurd hok (by decide)
      · rw [h] at hok
        exact absurd hok (by decide)
  obtain ⟨card, hcard⟩ := key
  rw [hcard, getField_setField_same]
  rfl

theorem deck_field_is_canonical_witness :
    getField "deck" (getNextCard "GPT" "3" sampleWorld).1.body
      = some (Value.str (if "GPT" = "gpt" then "gpt" else "gemini")) :=
  deck_field_is_canonical "GPT" "3" 0 sampleWorld (getNextCard "GPT" "3" sampleWorld).1
    (Or.inr rfl) (by decide)

theorem getCollectionName_gpt_iff (deck : String) :
    getCollectionName deck = "GptQuestions" ↔ deck = "gpt" := by
  unfold getCollectionName
  by_cases h : deck = "gpt"
  · simp [h, CollectionGpt]
  · simp [h, CollectionGemini]

theorem getCollectionName_other (deck : String) (h : deck ≠ "gpt") :
    getCollectionName deck = "GeminiQuestions" := by
  simp [getCollectionName, h, CollectionGemini]

/-- C4: `getCollectionName` is total, yields "GptQuestions" exactly for the deck
"gpt" and "GeminiQuestions" for every other string, the empty one included; the
storage calls that `getRandomCard` and `getNextCard` add to the log all address
that collection; and two stores that agree on that collection and on the fault
schedule get the same responses, whatever their other collections hold. -/
theorem only_resolved_collection_is_queried (deck currentIDStr : String) (raw : Nat)
    (w w2 : World)
    (hsame : w2.colls (getCollectionName deck) = w.colls (getCollectionName deck))
    (hfaults : w2.faults = w.faults) :
    (getCollectionName deck = "GptQuestions" ↔ deck = "gpt") ∧
      (deck ≠ "gpt" → getCollectionName deck = "GeminiQuestions") ∧
      getCollectionName "" = "GeminiQuestions" ∧
      (∃ qs, (getRandomCard deck raw w).2.log = w.log ++ qs ∧
        ∀ q ∈ qs, Query.coll q = getCollectionName deck) ∧
      (∃ qs, (getNextCard deck currentIDStr w).2.log = w.log ++ qs ∧
        ∀ q ∈ qs, Query.coll q = getCollectionName deck) ∧
      (getRandomCard deck raw w2).1 = (getRandomCard deck raw w).1 ∧
      (getNextCard deck currentIDStr w2).1 = (getNextCard deck currentIDStr w).1 := by
  refine ⟨getCollectionName_gpt_iff deck, getCollectionName_other deck,
    getCollectionName_other "" (by decide), ?_, ?_, ?_, ?_⟩
  · obtain ⟨qs, fs, h, hq, _⟩ := getRandomCard_snd deck raw w
    exact ⟨qs, by rw [h], hq⟩
  · obtain ⟨qs, fs, h, hq, _⟩ := getNextCard_snd deck currentIDStr w
    exact ⟨qs, by rw [h], hq⟩
  · rw [getRandomCard_fst, getRandomCard_fst, hsame, hfaults]
  · cases ha : Atoi currentIDStr with
    | none =>
      unfold getNextCard
      by_cases hs : currentIDStr = "" <;> simp [hs, ha]
    | some cur =>
      rw [getNextCard_fst deck currentIDStr w cur ha, getNextCard_fst deck currentIDStr w2 cur ha,
        hsame, hfaults]

theorem only_resolved_collection_is_queried_witness :
    (getCollectionName "" = "GptQuestions" ↔ "" = "gpt") ∧
      ("" ≠ "gpt" → getCollectionName "" = "GeminiQuestions") ∧
      getCollectionName "" = "GeminiQuestions" ∧
      (∃ qs, (getRandomCard "" 5 sampleWorld).2.log = sampleWorld.log ++ qs ∧
        ∀ q ∈ qs, Query.coll q = getCollectionName "") ∧
      (∃ qs, (getNextCard "" "3" sampleWorld).2.log = sampleWorld.log ++ qs ∧
        ∀ q ∈ qs, Query.coll q = getCollectionName "") ∧
      (getRandomCard "" 5 sampleWorldGpt).1 = (getRandomCard "" 5 sampleWorld).1 ∧
      (getNextCard "" "3" sampleWorldGpt).1 = (getNextCard "" "3" sampleWorld).1 :=
  only_resolved_collection_is_queried "" "3" 5 sampleWorld sampleWorldGpt (by decide) rfl

theorem getNextCard_rejects (deck s : String) (w : World) (ha : Atoi s = none) :
    (getNextCard deck s w).1.status = StatusBadRequest ∧ (getNextCard deck s w).2 = w := by
  unfold getNextCard
  by_cases hs : s = "" <;> simp [hs, ha]

/-- C5: `getNextCard` answers 400 and leaves the store untouched (no storage call
is logged, the fault schedule is not consumed) whenever `current_id` is empty or
`strconv.Atoi` rejects it, as it does for "abc"; a `current_id` that `Atoi`
accepts never gets 400. -/
theorem getNextCard_bad_request (deck currentIDStr : String) (w : World) :
    Atoi "" = none ∧ Atoi "abc" = none ∧
      (currentIDStr = "" ∨ Atoi currentIDStr = none →
        (getNextCard deck currentIDStr w).1.status = StatusBadRequest ∧
          (getNextCard deck currentIDStr w).2 = w) ∧
      (∀ n, Atoi currentIDStr = some n →
        (getNextCard deck currentIDStr w).1.status ≠ StatusBadRequest) := by
  refine ⟨by decide, by decide, ?_, ?_⟩
  · intro h
    have ha : Atoi currentIDStr = none := by
      rcases h with h | h
      · rw [h]
        decide
      · exact h
    exact getNextCard_rejects deck currentIDStr w ha
  · intro n hn
    rw [getNextCard_fst deck currentIDStr w n hn]
    rcases nextResponse_status deck (w.colls (getCollectionName deck)) n (nextFault w.faults).1
      (nextFault (nextFault w.faults).2).1 with h | h | h
    · rw [h.1]
      decide
    · rw [h]
      decide
    · rw [h]
      decide

theorem getNextCard_bad_request_witness :
    ((getNextCard "" "abc" sampleWorld).1.status = StatusBadRequest ∧
        (getNextCard "" "abc" sampleWorld).2 = sampleWorld) ∧
      (getNextCard "" "-3" sampleWorld).1.status ≠ StatusBadRequest :=
  ⟨(getNextCard_bad_request "" "abc" sampleWorld).2.2.1 (Or.inr (by decide)),
    (getNextCard_bad_request "" "-3" sampleWorld).2.2.2 (-3) (by decide)⟩

/-- C6: on an empty resolved collection neither handler ever answers 200, and
when storage reports no fault `getRandomCard` answers 404 with the body
`error: No cards found in deck` and `getNextCard`, given a `current_id` that
parses, answers 404 with the body `error: No next card found`. -/
theorem empty_collection_not_found (deck currentIDStr : String) (raw : Nat) (cur : Int)
    (w : World) (hempty : w.colls (getCollectionName deck) = [])
    (hparse : Atoi currentIDStr = some cur) :
    (NoFault w →
        (getRandomCard deck raw w).1 = ⟨StatusNotFound, errorBody "No cards found in deck"⟩ ∧
        (getNextCard deck currentIDStr w).1
          = ⟨StatusNotFound, errorBody "No next card found"⟩) ∧
      (getRandomCard deck raw w).1.status ≠ StatusOK ∧
      ∀ s, (getNextCard deck s w).1.status ≠ StatusOK := by
  refine ⟨?_, ?_, ?_⟩
  · intro hnf
    obtain ⟨hf1, hf2⟩ := noFault_nextFault w hnf
    constructor
    · rw [getRandomCard_fst, hempty]
      simp [randomResponse, hf1]
    · rw [getNextCard_fst deck currentIDStr w cur hparse, hempty]
      simp [nextResponse, hf1, hf2, selectOne_nil]
  · rw [getRandomCard_fst, hempty]
    cases (nextFault w.faults).1 <;> simp [randomResponse] <;> decide
  · intro s
    cases ha : Atoi s with
    | none =>
      rw [(getNextCard_rejects deck s w ha).1]
      decide
    | some n =>
      rw [getNextCard_fst deck s w n ha, hempty]
      cases (nextFault w.faults).1 <;> cases (nextFault (nextFault w.faults).2).1 <;>
        simp [nextResponse, selectOne_nil] <;> decide

theorem empty_collection_not_found_witness :
    (NoFault sampleWorld →
        (getRandomCard "gpt" 5 sampleWorld).1
          = ⟨StatusNotFound, errorBody "No cards found in deck"⟩ ∧
        (getNextCard "gpt" "3" sampleWorld).1
          = ⟨StatusNotFound, errorBody "No next card found"⟩) ∧
      (getRandomCard "gpt" 5 sampleWorld).1.status ≠ StatusOK ∧
      ∀ s, (getNextCard "gpt" s sampleWorld).1.status ≠ StatusOK :=
  empty_collection_not_found "gpt" "3" 5 3 sampleWorld (by decide) (by decide)

/-- C7: evaluation of `getNextCard` where the primary query reports no documents
and the wrap-around query fails with a storage fault: the answer is 404 with the
body `error: No next card found`, not 500. -/
theorem wraparound_fault_answers_not_found :
    (findOne CollectionGemini (Filter.idGt 7) ⟨true, 0⟩ wrapFaultWorld).1
        = Except.error StorageError.noDocuments ∧
      (findOne CollectionGemini Filter.all ⟨true, 0⟩
          (findOne CollectionGemini (Filter.idGt 7) ⟨true, 0⟩ wrapFaultWorld).2).1
        = Except.error StorageError.fault ∧
      (getNextCard "" "7" wrapFaultWorld).1 = ⟨StatusNotFound, errorBody "No next card found"⟩ ∧
      (getNextCard "" "7" wrapFaultWorld).1.status ≠ StatusInternalServerError :=
  ⟨rfl, rfl, by decide, by decide⟩

/-- C8: for a non-empty resolved collection of `n` documents, any value of the
random source and no storage fault, the offset `getRandomCard` computes is below
`n`, a document is stored at that offset, and the answer is 200 with that
document, its `deck` field set to the canonical deck name and every other field
as stored. -/
theorem getRandomCard_offset_in_range (deck : String) (raw : Nat) (w : World)
    (hnf : NoFault w) (hne : w.colls (getCollectionName deck) ≠ []) :
    Int63n raw (w.colls (getCollectionName deck)).length
        < (w.colls (getCollectionName deck)).length ∧
      ∃ d, (w.colls (getCollectionName deck))[Int63n raw
          (w.colls (getCollectionName deck)).length]? = some d ∧
        (getRandomCard deck raw w).1
          = ⟨StatusOK, setField "deck" (Value.str (canonicalDeck deck)) d⟩ ∧
        getField "deck" (getRandomCard deck raw w).1.body
          = some (Value.str (canonicalDeck deck)) ∧
        ∀ k, k ≠ "deck" → getField k (getRandomCard deck raw w).1.body = getField k d := by
  have hpos : 0 < (w.colls (getCollectionName deck)).length := List.length_pos.2 hne
  have hlt : Int63n raw (w.colls (getCollectionName deck)).length
      < (w.colls (getCollectionName deck)).length := Nat.mod_lt raw hpos
  obtain ⟨hf1, hf2⟩ := noFault_nextFault w hnf
  refine ⟨hlt, (w.colls (getCollectionName deck))[Int63n raw
    (w.colls (getCollectionName deck)).length], List.getElem?_eq_getElem hlt, ?_⟩
  have hresp : (getRandomCard deck raw w).1
      = ⟨StatusOK, setField "deck" (Value.str (canonicalDeck deck))
          (w.colls (getCollectionName deck))[Int63n raw
            (w.colls (getCollectionName deck)).length]⟩ := by
    rw [getRandomCard_fst]
    simp [randomResponse, hf1, hf2, List.getElem?_eq_getElem hlt, Nat.pos_iff_ne_zero.1 hpos]
  refine ⟨hresp, ?_, ?_⟩
  · rw [hresp]
    exact getField_setField_same "deck" _ _
  · intro k hk
    rw [hresp]
    exact getField_setField_other "deck" k _ _ hk

theorem getRandomCard_offset_in_range_witness :
    Int63n 8 (sampleWorld.colls (getCollectionName "gemini")).length
        < (sampleWorld.colls (getCollectionName "gemini")).length ∧
      ∃ d, (sampleWorld.colls (getCollectionName "gemini"))[Int63n 8
          (sampleWorld.colls (getCollectionName "gemini")).length]? = some d ∧
        (getRandomCard "gemini" 8 sampleWorld).1
          = ⟨StatusOK, setField "deck" (Value.str (canonicalDeck "gemini")) d⟩ ∧
        getField "deck" (getRandomCard "gemini" 8 sampleWorld).1.body
          = some (Value.str (canonicalDeck "gemini")) ∧
        ∀ k, k ≠ "deck" →
          getField k (getRandomCard "gemini" 8 sampleWorld).1.body = getField k d :=
  getRandomCard_offset_in_range "gemini" 8 sampleWorld noFault_sampleWorld
    (by rw [sampleWorld_gemini "gemini" (by decide)]; decide)

theorem digitChar_spec : ∀ d, d < 10 →
    ('0' ≤ digitChar d ∧ digitChar d ≤ '9') ∧ (digitChar d).toNat - '0'.toNat = d ∧
      digitChar d ≠ '-' ∧ digitChar d ≠ '+' := by
  decide

theorem parseDigits_append (xs ys : List Char) (acc : Nat) :
    parseDigits (xs ++ ys) acc = (parseDigits xs acc).bind (parseDigits ys) := by
  induction xs generalizing acc with
  | nil => rfl
  | cons c cs ih =>
    simp only [List.cons_append, parseDigits]
    split
    · exact ih _
    · rfl

theorem parseDigits_digits (ds : List Nat) (h : ∀ d ∈ ds, d < 10) (acc : Nat) :
    parseDigits (ds.reverse.map digitChar) acc
      = some (acc * 10 ^ ds.length + Nat.ofDigits 10 ds) := by
  induction ds generalizing acc with
  | nil => simp [parseDigits]
  | cons d t ih =>
    have hd := digitChar_spec d (h d (List.mem_cons_self d t))
    have ht : ∀ x ∈ t, x < 10 := fun x hx => h x (List.mem_cons_of_mem d hx)
    rw [List.reverse_cons, List.map_append, parseDigits_append, ih ht]
    simp only [List.map_cons, List.map_nil, Option.some_bind, parseDigits, hd.1, and_self,
      if_true, hd.2.1, Nat.ofDigits_cons, List.length_cons]
    congr 1
    ring

theorem parseDigits_natDigits (n : Nat) : parseDigits (natDigits n) 0 = some n := by
  unfold natDigits
  split
  · next h => subst h; decide
  · rw [parseDigits_digits _ (fun d hd => Nat.digits_lt_base (by decide) hd)]
    simp [Nat.ofDigits_digits]

theorem natDigits_head (n : Nat) :
    ∃ c cs, natDigits n = c :: cs ∧ c ≠ '-' ∧ c ≠ '+' := by
  unfold natDigits
  split
  · exact ⟨'0', [], rfl, by decide, by decide⟩
  · next h =>
    have hne : (Nat.digits 10 n).reverse ≠ [] := by
      simpa using (Nat.digits_ne_nil_iff_ne_zero.2 h)
    cases hr : (Nat.digits 10 n).reverse with
    | nil => exact absurd hr hne
    | cons d t =>
      have hmem : d ∈ Nat.digits 10 n := by
        rw [← List.mem_reverse, hr]
        exact List.mem_cons_self d t
      have hd := digitChar_spec d (Nat.digits_lt_base (by decide) hmem)
      exact ⟨digitChar d, t.map digitChar, by simp, hd.2.2.1, hd.2.2.2⟩

theorem Atoi_mk_unsigned (c : Char) (cs : List Char) (h1 : c ≠ '-') (h2 : c ≠ '+') (n : Nat)
    (hp : parseDigits (c :: cs) 0 = some n) (hr : (n : Int) < 2 ^ 63) :
    Atoi (String.mk (c :: cs)) = some (n : Int) := by
  have hlo : -(2 : Int) ^ 63 ≤ (n : Int) := by
    have : (0 : Int) ≤ (n : Int) := Int.ofNat_nonneg n
    omega
  have hsz : intSize - 1 = 63 := rfl
  simp only [Atoi, String.toList, h1, h2, or_self, if_false, hp, decide_False, hsz,
    List.cons_ne_nil, Bool.false_eq_true]
  rw [if_pos ⟨hlo, hr⟩]

theorem Atoi_mk_neg (cs : List Char) (hne : cs ≠ []) (n : Nat)
    (hp : parseDigits cs 0 = some n) (hr : (n : Int) ≤ 2 ^ 63) :
    Atoi (String.mk ('-' :: cs)) = some (-(n : Int)) := by
  have hhi : -(n : Int) < (2 : Int) ^ 63 := by
    have : (0 : Int) ≤ (n : Int) := Int.ofNat_nonneg n
    omega
  have hlo : -(2 : Int) ^ 63 ≤ -(n : Int) := by omega
  have hsz : intSize - 1 = 63 := rfl
  simp only [Atoi, String.toList, true_or, if_true, hp, decide_True, hsz, hne, if_false]
  rw [if_pos ⟨hlo, hhi⟩]

theorem Atoi_Itoa (i : Int) (hlo : -(2 : Int) ^ 63 ≤ i) (hhi : i < (2 : Int) ^ 63) :
    Atoi (Itoa i) = some i := by
  cases i with
  | ofNat n =>
    obtain ⟨c, cs, hcs, h1, h2⟩ := natDigits_head n
    have hp := parseDigits_natDigits n
    rw [hcs] at hp
    simp only [Itoa, hcs]
    exact Atoi_mk_unsigned c cs h1 h2 n hp hhi
  | negSucc n =>
    obtain ⟨c, cs, hcs, _, _⟩ := natDigits_head (n + 1)
    have hp := parseDigits_natDigits (n + 1)
    have hr : ((n + 1 : Nat) : Int) ≤ 2 ^ 63 := by
      rw [Int.negSucc_eq] at hlo
      push_cast
      omega
    have hne : natDigits (n + 1) ≠ [] := by
      rw [hcs]
      exact List.cons_ne_nil c cs
    simp only [Itoa]
    rw [Atoi_mk_neg (natDigits (n + 1)) hne (n + 1) hp hr, Int.negSucc_eq]
    push_cast
    rfl

theorem Itoa_ne_empty (i : Int) : Itoa i ≠ "" := by
  intro h
  have hd := congrArg String.data h
  cases i with
  | ofNat n =>
    obtain ⟨c, cs, hcs, _⟩ := natDigits_head n
    simp [Itoa, hcs] at hd
  | negSucc n =>
    simp [Itoa] at hd

theorem idOf_eq_intKey (docs : List Card) (hint : IntIds docs) (d : Card) (hd : d ∈ docs) :
    idOf d = Value.int (intKey d) := by
  obtain ⟨i, hi⟩ := hint d hd
  simp [intKey, hi]

theorem intKey_of_idOf (d : Card) (i : Int) (h : idOf d = Value.int i) : intKey d = i := by
  simp [intKey, h]

theorem sorted_keys (docs : List Card) (hids : DistinctIntIds docs) :
    ((docs.insertionSort idLe).map intKey).Pairwise (fun a b => a < b) := by
  have hmap : (docs.insertionSort idLe).map intKey
      = (docs.map intKey).insertionSort (fun a b => a ≤ b) := by
    apply List.map_insertionSort idLe (fun a b : Int => a ≤ b) intKey docs
    intro a ha b hb
    exact idLe_int a b _ _ (idOf_eq_intKey docs hids.1 a ha) (idOf_eq_intKey docs hids.1 b hb)
  have hnd : (docs.map intKey).Nodup := by
    have h2 : docs.map idOf = (docs.map intKey).map Value.int := by
      rw [List.map_map]
      apply List.map_congr_left
      intro d hd
      exact idOf_eq_intKey docs hids.1 d hd
    have h3 := hids.2
    rw [h2] at h3
    exact List.Nodup.of_map _ h3
  have hs : ((docs.map intKey).insertionSort (fun a b => a ≤ b)).Sorted (fun a b => a ≤ b) :=
    List.sorted_insertionSort (fun a b : Int => a ≤ b) (docs.map intKey)
  have hnd2 : ((docs.map intKey).insertionSort (fun a b => a ≤ b)).Nodup :=
    (List.perm_insertionSort _ _).nodup_iff.2 hnd
  rw [hmap]
  exact List.Sorted.lt_of_le hs hnd2

theorem sorted_mono (L : List Card) (h : (L.map intKey).Pairwise (fun a b => a < b))
    (i j : Nat) (a b : Card) (hi : L[i]? = some a) (hj : L[j]? = some b) (hij : i < j) :
    intKey a < intKey b := by
  rw [List.pairwise_map, List.pairwise_iff_getElem] at h
  obtain ⟨hi', rfl⟩ := List.getElem?_eq_some.1 hi
  obtain ⟨hj', rfl⟩ := List.getElem?_eq_some.1 hj
  exact h i j hi' hj' hij

theorem sorted_mono_le (L : List Card) (h : (L.map intKey).Pairwise (fun a b => a < b))
    (i j : Nat) (a b : Card) (hi : L[i]? = some a) (hj : L[j]? = some b) (hij : i ≤ j) :
    intKey a ≤ intKey b := by
  rcases Nat.lt_or_ge i j with hlt | hge
  · exact le_of_lt (sorted_mono L h i j a b hi hj hlt)
  · have : i = j := Nat.le_antisymm hij hge
    subst this
    rw [hi] at hj
    injection hj with hj
    rw [hj]

theorem stepDoc_sorted (docs L : List Card) (hperm : L.Perm docs) (hint : IntIds docs)
    (hsorted : (L.map intKey).Pairwise (fun a b => a < b)) (i : Nat) (d : Card)
    (hi : L[i]? = some d) :
    ∃ d', L[(i + 1) % L.length]? = some d' ∧ stepDoc docs (intKey d) = some d' := by
  obtain ⟨hilt, hid⟩ := List.getElem?_eq_some.1 hi
  have hidx : ∀ e ∈ docs, ∃ j : Nat, L[j]? = some e := by
    intro e he
    obtain ⟨j, hj, hje⟩ := List.getElem_of_mem (hperm.mem_iff.2 he)
    exact ⟨j, List.getElem?_eq_some.2 ⟨hj, hje⟩⟩
  rcases Nat.lt_or_ge (i + 1) L.length with hlt | hge
  · -- a successor exists
    rw [Nat.mod_eq_of_lt hlt]
    have hs : L[i + 1]? = some L[i + 1] := List.getElem?_eq_getElem hlt
    have hmem : L[i + 1] ∈ docs := hperm.mem_iff.1 (List.getElem_mem hlt)
    have hkey := sorted_mono L hsorted i (i + 1) d L[i + 1] hi hs (Nat.lt_succ_self i)
    obtain ⟨dd, hdd, ii, hii, hgt, hmin, hsel⟩ := selectOne_gt_some (intKey d) docs
      ⟨L[i + 1], hmem, intKey L[i + 1], idOf_eq_intKey docs hint _ hmem, hkey⟩
    obtain ⟨j, hj⟩ := hidx dd hdd
    have hkdd : intKey dd = ii := intKey_of_idOf dd ii hii
    have hle := hmin L[i + 1] hmem (intKey L[i + 1]) (idOf_eq_intKey docs hint _ hmem) hkey
    have hj1 : j = i + 1 := by
      rcases Nat.lt_trichotomy j (i + 1) with h | h | h
      · have := sorted_mono_le L hsorted j i dd d hj hi (Nat.lt_succ_iff.1 h)
        omega
      · exact h
      · have := sorted_mono L hsorted (i + 1) j L[i + 1] dd hs hj h
        omega
    subst hj1
    refine ⟨dd, hj, ?_⟩
    simp [stepDoc, hsel]
  · -- the last document: wrap around
    have hlen : i + 1 = L.length := by omega
    rw [← hlen, Nat.mod_self]
    have hne : docs ≠ [] := by
      intro h
      have hl := hperm.length_eq
      rw [h, List.length_nil] at hl
      omega
    have hnone : selectOne (Filter.idGt (intKey d)) ⟨true, 0⟩ docs = none := by
      apply selectOne_gt_none
      intro e he j hj
      obtain ⟨k, hk⟩ := hidx e he
      have hklt : k < L.length := (List.getElem?_eq_some.1 hk).1
      have := sorted_mono_le L hsorted k i e d hk hi (by omega)
      rw [intKey_of_idOf e j hj] at this
      exact this
    obtain ⟨dd, hdd, ii, hii, hmin, hsel⟩ := selectOne_all_some docs hint hne
    obtain ⟨j, hj⟩ := hidx dd hdd
    have h0lt : 0 < L.length := by omega
    have hs0 : L[0]? = some L[0] := List.getElem?_eq_getElem h0lt
    have hmem0 : L[0] ∈ docs := hperm.mem_iff.1 (List.getElem_mem h0lt)
    have hle := hmin L[0] hmem0 (intKey L[0]) (idOf_eq_intKey docs hint _ hmem0)
    have hkdd : intKey dd = ii := intKey_of_idOf dd ii hii
    have hj0 : j = 0 := by
      rcases Nat.eq_zero_or_pos j with h | h
      · exact h
      · have := sorted_mono L hsorted 0 j L[0] dd hs0 hj h
        omega
    subst hj0
    refine ⟨dd, hj, ?_⟩
    simp [stepDoc, hnone, hsel]

theorem getNextCard_world (deck s : String) (w : World) (hnf : NoFault w) :
    NoFault (getNextCard deck s w).2 ∧ (getNextCard deck s w).2.colls = w.colls := by
  obtain ⟨qs, fs, h, _, hfs, _⟩ := getNextCard_snd deck s w
  rw [h]
  exact ⟨fun b hb => hnf b (hfs b hb), rfl⟩

theorem getNextCard_noFault (deck s : String) (w : World) (cur : Int) (hnf : NoFault w)
    (hparse : Atoi s = some cur) :
    (getNextCard deck s w).1
      = match stepDoc (w.colls (getCollectionName deck)) cur with
        | some d => okResponse deck d
        | none => ⟨StatusNotFound, errorBody "No next card found"⟩ := by
  obtain ⟨hf1, hf2⟩ := noFault_nextFault w hnf
  rw [getNextCard_fst deck s w cur hparse, hf1, hf2]
  unfold nextResponse stepDoc okResponse
  cases selectOne (Filter.idGt cur) ⟨true, 0⟩ (w.colls (getCollectionName deck)) <;>
    cases selectOne Filter.all ⟨true, 0⟩ (w.colls (getCollectionName deck)) <;> simp

theorem idOf_setField_deck (v : Value) (d : Card) : idOf (setField "deck" v d) = idOf d := by
  unfold idOf
  rw [getField_setField_other "deck" "_id" v d (by decide)]

theorem idString_okResponse (deck : String) (d : Card) (i : Int) (h : idOf d = Value.int i) :
    idString (okResponse deck d).body = Itoa i := by
  have h1 : getField "_id" (okResponse deck d).body = getField "_id" d :=
    getField_setField_other "deck" "_id" _ d (by decide)
  unfold idString
  rw [h1]
  unfold idOf at h
  cases hg : getField "_id" d with
  | none => simp [hg] at h
  | some v =>
    simp only [hg, Option.getD_some] at h
    rw [h]

theorem followNext_length (deck : String) (k : Nat) (s : String) (w : World) :
    (followNext deck k s w).length = k := by
  induction k generalizing s w with
  | zero => rfl
  | succ k ih => simp [followNext, ih]

theorem followNext_getElem? (deck : String) (docs L : List Card) (hperm : L.Perm docs)
    (hint : IntIds docs) (hrange : IdsInRange docs)
    (hsorted : (L.map intKey).Pairwise (fun a b => a < b)) :
    ∀ (k i : Nat) (d : Card) (w : World), NoFault w → w.colls (getCollectionName deck) = docs →
      L[i]? = some d → ∀ j, j < k →
      (followNext deck k (Itoa (intKey d)) w)[j]?
        = (L[(i + 1 + j) % L.length]?).map (okResponse deck) := by
  intro k
  induction k with
  | zero =>
    intro i d w _ _ _ j hj
    exact absurd hj (Nat.not_lt_zero j)
  | succ k ih =>
    intro i d w hnf hdocs hi j hj
    have hd : d ∈ docs := hperm.mem_iff.1 (List.getElem?_mem hi)
    have hidd := idOf_eq_intKey docs hint d hd
    have hr := hrange d hd (intKey d) hidd
    have hparse : Atoi (Itoa (intKey d)) = some (intKey d) := Atoi_Itoa _ hr.1 hr.2
    obtain ⟨d', hd', hstep⟩ := stepDoc_sorted docs L hperm hint hsorted i d hi
    have hresp : (getNextCard deck (Itoa (intKey d)) w).1 = okResponse deck d' := by
      rw [getNextCard_noFault deck _ w (intKey d) hnf hparse, hdocs, hstep]
    have hmem' : d' ∈ docs := hperm.mem_iff.1 (List.getElem?_mem hd')
    have hnext : idString (getNextCard deck (Itoa (intKey d)) w).1.body = Itoa (intKey d') := by
      rw [hresp]
      exact idString_okResponse deck d' _ (idOf_eq_intKey docs hint d' hmem')
    obtain ⟨hnf', hcolls'⟩ := getNextCard_world deck (Itoa (intKey d)) w hnf
    cases j with
    | zero =>
      simp only [followNext, List.getElem?_cons_zero, Nat.add_zero, hresp, hd', Option.map_some']
    | succ j =>
      simp only [followNext, List.getElem?_cons_succ, hnext]
      rw [ih ((i + 1) % L.length) d' (getNextCard deck (Itoa (intKey d)) w).2 hnf'
        (by rw [hcolls', hdocs]) hd' j (Nat.lt_of_succ_lt_succ hj)]
      congr 2
      rw [Nat.add_assoc ((i + 1) % L.length), Nat.mod_add_mod]
      congr 1
      omega

theorem followNext_eq_rotate (deck : String) (docs L : List Card) (hperm : L.Perm docs)
    (hint : IntIds docs) (hrange : IdsInRange docs)
    (hsorted : (L.map intKey).Pairwise (fun a b => a < b))
    (i : Nat) (d : Card) (w : World) (hnf : NoFault w)
    (hdocs : w.colls (getCollectionName deck) = docs) (hi : L[i]? = some d) :
    followNext deck L.length (Itoa (intKey d)) w = (L.rotate (i + 1)).map (okResponse deck) := by
  apply List.ext_getElem?
  intro j
  rcases Nat.lt_or_ge j L.length with hj | hj
  · rw [followNext_getElem? deck docs L hperm hint hrange hsorted L.length i d w hnf hdocs hi j hj,
      List.getElem?_map, List.getElem?_rotate hj, Nat.add_comm j (i + 1)]
  · rw [List.getElem?_eq_none (by rw [followNext_length]; exact hj),
      List.getElem?_eq_none (by rw [List.length_map, List.length_rotate]; exact hj)]

theorem idsInRange_sampleDocs : IdsInRange sampleDocs := by
  intro d hd i hi
  simp only [sampleDocs, List.mem_cons, List.mem_singleton, List.not_mem_nil, or_false] at hd
  rcases hd with rfl | rfl | rfl <;> (injection hi with hi; omega)

/-- C9 (as stated): a store whose first storage call faults. The first
`getNextCard` call answers 500, the same call repeated against the unchanged
collection answers 200, so the two responses differ. -/
theorem repeated_call_differs_after_fault :
    (getNextCard "" "3" faultOnceWorld).2.colls = faultOnceWorld.colls ∧
      (getNextCard "" "3" faultOnceWorld).1.status = StatusInternalServerError ∧
      (getNextCard "" "3" (getNextCard "" "3" faultOnceWorld).2).1.status = StatusOK ∧
      (getNextCard "" "3" (getNextCard "" "3" faultOnceWorld).2).1
        ≠ (getNextCard "" "3" faultOnceWorld).1 :=
  ⟨rfl, by decide, by decide, by decide⟩

/-- C9 (amended): when storage reports no fault, a `getNextCard` call leaves the
collections unchanged, the same call repeated right after it gets the identical
response, and so does the same call against any fault-free store holding the
same resolved collection: the response is a function of the deck, `current_id`
and the contents of the resolved collection. -/
theorem getNextCard_repeatable (deck currentIDStr : String) (w w2 : World)
    (hnf : NoFault w) (hnf2 : NoFault w2)
    (hsame : w2.colls (getCollectionName deck) = w.colls (getCollectionName deck)) :
    (getNextCard deck currentIDStr w).2.colls = w.colls ∧
      (getNextCard deck currentIDStr (getNextCard deck currentIDStr w).2).1
        = (getNextCard deck currentIDStr w).1 ∧
      (getNextCard deck currentIDStr w2).1 = (getNextCard deck currentIDStr w).1 := by
  have key : ∀ v : World, NoFault v →
      v.colls (getCollectionName deck) = w.colls (getCollectionName deck) →
      (getNextCard deck currentIDStr v).1 = (getNextCard deck currentIDStr w).1 := by
    intro v hv hc
    cases ha : Atoi currentIDStr with
    | none =>
      unfold getNextCard
      by_cases hs : currentIDStr = "" <;> simp [hs, ha]
    | some cur =>
      rw [getNextCard_noFault deck currentIDStr v cur hv ha,
        getNextCard_noFault deck currentIDStr w cur hnf ha, hc]
  obtain ⟨hnf', hcolls⟩ := getNextCard_world deck currentIDStr w hnf
  exact ⟨hcolls, key _ hnf' (by rw [hcolls]), key w2 hnf2 hsame⟩

theorem getNextCard_repeatable_witness :
    (getNextCard "" "7" sampleWorld).2.colls = sampleWorld.colls ∧
      (getNextCard "" "7" (getNextCard "" "7" sampleWorld).2).1
        = (getNextCard "" "7" sampleWorld).1 ∧
      (getNextCard "" "7" sampleWorldGpt).1 = (getNextCard "" "7" sampleWorld).1 :=
  getNextCard_repeatable "" "7" sampleWorld sampleWorldGpt noFault_sampleWorld
    (by intro b hb; simp [sampleWorldGpt] at hb) (by decide)

/-- C10 (as stated): the collection holds the distinct identifiers 3, 7, 1 and the
fourth storage call faults. Three successive `getNextCard` calls starting at
`current_id = 3`, each passing on the identifier just returned, answer document
7, document 1 (by wrap-around, two storage calls) and then 500: the third call
does not return the document with identifier 3, and document 3 is never
returned. -/
theorem cycle_broken_by_fault :
    faultFourthWorld.colls (getCollectionName "") = sampleDocs ∧
      DistinctIntIds (faultFourthWorld.colls (getCollectionName "")) ∧
      sampleCard 3 "c" ∈ faultFourthWorld.colls (getCollectionName "") ∧
      followNext "" (faultFourthWorld.colls (getCollectionName "")).length (Itoa 3)
          faultFourthWorld
        = [okResponse "" (sampleCard 7 "g"), okResponse "" (sampleCard 1 "a"),
            ⟨StatusInternalServerError, errorBody "Failed to fetch card"⟩] ∧
      (followNext "" (faultFourthWorld.colls (getCollectionName "")).length (Itoa 3)
          faultFourthWorld).getLast? ≠ some (okResponse "" (sampleCard 3 "c")) ∧
      okResponse "" (sampleCard 3 "c") ∉
        followNext "" (faultFourthWorld.colls (getCollectionName "")).length (Itoa 3)
          faultFourthWorld := by
  have hdocs : faultFourthWorld.colls (getCollectionName "") = sampleDocs := by decide
  have h3 : Itoa 3 = "3" := by
    simp [Itoa, natDigits, digitChar]
  have i7 : idString (okResponse "" (sampleCard 7 "g")).body = "7" := by
    show Itoa 7 = "7"
    simp [Itoa, natDigits, digitChar]
  have i1 : idString (okResponse "" (sampleCard 1 "a")).body = "1" := by
    show Itoa 1 = "1"
    simp [Itoa, natDigits, digitChar]
  have e1 : (getNextCard "" "3" faultFourthWorld).1 = okResponse "" (sampleCard 7 "g") := by
    decide
  have e2 : (getNextCard "" "7" (getNextCard "" "3" faultFourthWorld).2).1
      = okResponse "" (sampleCard 1 "a") := by
    decide
  have e3 : (getNextCard "" "1"
      (getNextCard "" "7" (getNextCard "" "3" faultFourthWorld).2).2).1
      = ⟨StatusInternalServerError, errorBody "Failed to fetch card"⟩ := by
    decide
  have hrun : followNext "" (faultFourthWorld.colls (getCollectionName "")).length (Itoa 3)
      faultFourthWorld
      = [okResponse "" (sampleCard 7 "g"), okResponse "" (sampleCard 1 "a"),
          ⟨StatusInternalServerError, errorBody "Failed to fetch card"⟩] := by
    rw [hdocs, h3]
    show followNext "" 3 "3" faultFourthWorld = _
    simp only [followNext]
    rw [e1, i7, e2, i1, e3]
  refine ⟨hdocs, by rw [hdocs]; exact distinctIntIds_sampleDocs, by rw [hdocs]; decide, hrun,
    ?_, ?_⟩
  · rw [hrun]
    decide
  · rw [hrun]
    decide

/-- C10 (amended): for a collection with distinct integer identifiers (each within the
range of `int`), an identifier `s` present in it and no storage fault, `n`
successive `getNextCard` calls (`n` the size of the collection), starting at
`current_id = s` and each passing on the identifier just returned, answer 200
with every document of the collection exactly once, the last answer being the
document with identifier `s`. -/
theorem getNextCard_single_cycle (deck : String) (w : World) (d0 : Card) (s : Int)
    (hnf : NoFault w) (hids : DistinctIntIds (w.colls (getCollectionName deck)))
    (hrange : IdsInRange (w.colls (getCollectionName deck)))
    (hd0 : d0 ∈ w.colls (getCollectionName deck)) (hs : idOf d0 = Value.int s) :
    (followNext deck (w.colls (getCollectionName deck)).length (Itoa s) w).Perm
        ((w.colls (getCollectionName deck)).map (okResponse deck)) ∧
      (followNext deck (w.colls (getCollectionName deck)).length (Itoa s) w).Nodup ∧
      (followNext deck (w.colls (getCollectionName deck)).length (Itoa s) w).getLast?
        = some (okResponse deck d0) := by
  have hperm := List.perm_insertionSort idLe (w.colls (getCollectionName deck))
  have hsorted := sorted_keys (w.colls (getCollectionName deck)) hids
  obtain ⟨i, hi⟩ := List.mem_iff_getElem?.1 (hperm.mem_iff.2 hd0)
  have hilt : i < ((w.colls (getCollectionName deck)).insertionSort idLe).length :=
    (List.getElem?_eq_some.1 hi).1
  have hlen := hperm.length_eq
  have hkey : intKey d0 = s := intKey_of_idOf d0 s hs
  have hrot := followNext_eq_rotate deck _ _ hperm hids.1 hrange hsorted i d0 w hnf rfl hi
  rw [hkey, hlen] at hrot
  have hp : (followNext deck (w.colls (getCollectionName deck)).length (Itoa s) w).Perm
      ((w.colls (getCollectionName deck)).map (okResponse deck)) := by
    rw [hrot]
    exact ((List.rotate_perm _ _).trans hperm).map _
  refine ⟨hp, ?_, ?_⟩
  · rw [hp.nodup_iff]
    have hnd := hids.2
    have hcomp : (w.colls (getCollectionName deck)).map idOf
        = ((w.colls (getCollectionName deck)).map (okResponse deck)).map
            (fun r => idOf r.body) := by
      rw [List.map_map]
      apply List.map_congr_left
      intro d _
      exact (idOf_setField_deck _ d).symm
    rw [hcomp] at hnd
    exact List.Nodup.of_map _ hnd
  · rw [hrot, List.getLast?_eq_getElem?, List.length_map, List.length_rotate, List.getElem?_map,
      List.getElem?_rotate (by omega)]
    have hmod : (((w.colls (getCollectionName deck)).insertionSort idLe).length - 1 + (i + 1))
        % ((w.colls (getCollectionName deck)).insertionSort idLe).length = i := by
      have h1 : ((w.colls (getCollectionName deck)).insertionSort idLe).length - 1 + (i + 1)
          = i + ((w.colls (getCollectionName deck)).insertionSort idLe).length := by omega
      rw [h1, Nat.add_mod_right, Nat.mod_eq_of_lt hilt]
    rw [hmod, hi]
    rfl

theorem getNextCard_single_cycle_witness :
    (followNext "" (sampleWorld.colls (getCollectionName "")).length (Itoa 3) sampleWorld).Perm
        ((sampleWorld.colls (getCollectionName "")).map (okResponse "")) ∧
      (followNext "" (sampleWorld.colls (getCollectionName "")).length (Itoa 3)
        sampleWorld).Nodup ∧
      (followNext "" (sampleWorld.colls (getCollectionName "")).length (Itoa 3)
        sampleWorld).getLast? = some (okResponse "" (sampleCard 3 "c")) :=
  getNextCard_single_cycle "" sampleWorld (sampleCard 3 "c") 3 noFault_sampleWorld
    (by rw [sampleWorld_gemini "" (by decide)]; exact distinctIntIds_sampleDocs)
    (by rw [sampleWorld_gemini "" (by decide)]; exact idsInRange_sampleDocs)
    (by rw [sampleWorld_gemini "" (by decide)]; simp [sampleDocs])
    rfl

end ProjectSHASN
